import Mathlib

/-!
Shallow embedding of the concurrency/protocol core of the swupdate client
library and the mkswu updater-side helpers, together with proofs of the
specified properties.

Embedded source functions:
* `swupdate_async_thread` (write loop, drain phase, signal-mask handling,
  terminator invocation) — modelled as `writeLoop` for the data path of the
  do/while loop and `threadTrace` for the thread's event trace;
* `swupdate_async_start` / `start_ipc_thread` — lifecycle state machine;
* `swupdate_set_aes` — argument validation;
* `mkswu_lock` — flock acquisition, inode re-validation, reboot-pending stall;
* `pipe_poll_process` / the tail of `pipe_image` — subprocess polling and
  exit-status reporting.

Syscall outcomes (select readiness, flock errno, waitpid results,
ipc_get_status results) are supplied as explicit environment data, so every
definition is an executable function of the source's control flow over that
environment.  Machine integers are modelled as `Int`/`Nat`; errno constants
carry their Linux values.
-/

/-- Linux errno value for EBUSY. -/
def EBUSY : Int := 16

/-- Linux errno value for EINVAL. -/
def EINVAL : Int := 22

/-- Linux errno value for ECONNREFUSED. -/
def ECONNREFUSED : Int := 111

/-- Linux errno value for EAGAIN. -/
def EAGAIN : Nat := 11

/-- Linux errno value for EWOULDBLOCK (equal to EAGAIN on Linux). -/
def EWOULDBLOCK : Nat := 11

/-- Linux errno value for EINTR. -/
def EINTR : Nat := 4

/-! ## The write phase of `swupdate_async_thread`

The do/while loop at lines 72–109 of the async library: while the producer
callback `rq->wr` is set, each iteration obtains a chunk `(pbuf, size)` from
the producer; a zero `size` skips the write and exits the loop
(`while (size > 0)`); a non-zero chunk is pushed with
`swupdate_image_write(pbuf, size)` and any result different from `size` is
fatal (`goto out`).  `swupdate_image_write` itself is a pass-through to
`ipc_send_data(rq->connfd, buf, size)`, abstracted here as the transport
function `send` giving the number of bytes it transferred.  The environment
is taken benign for the data path: `select` reports the data connection
writable and the notification drain inside the loop reports no error (those
failure modes leave the data path untouched). -/

/-- Bytes are abstract `Nat`s; a chunk is the byte list the producer returns. -/
abbrev Chunk := List Nat

/-- Outcome of the write phase: `ok sent` when the loop terminated via a
zero-length chunk having written `sent` (all bytes, in producer order), or
`fatal sent` when a short write aborted the session after `sent` was
written. -/
inductive WriteOutcome where
  | ok (sent : List Nat)
  | fatal (sent : List Nat)
  deriving DecidableEq, Repr

/-- The data path of the do/while loop of `swupdate_async_thread`: consume
producer chunks in order; an empty chunk ends the phase; a non-empty chunk is
written via the transport `send`, and a transfer of anything other than the
chunk's length is fatal. -/
def writeLoop (send : Chunk → Int) : List Chunk → WriteOutcome
  | [] => .ok []
  | c :: rest =>
    if c.isEmpty then .ok []
    else if send c ≠ (c.length : Int) then .fatal []
    else
      match writeLoop send rest with
      | .ok s => .ok (c ++ s)
      | .fatal s => .fatal (c ++ s)

/-! ## `swupdate_set_aes` -/

/-- Result of `swupdate_set_aes`: either an error return with no message
sent, or the SET_AES_KEY command handed to `ipc_send_cmd`. -/
inductive AesResult where
  | err (e : Int)
  | sendCmd
  deriving DecidableEq, Repr

/-- `swupdate_set_aes(key, ivt)`: NULL arguments are rejected with `-EINVAL`;
then the source checks `strlen(key) != 64 && strlen(ivt) != 32` (note the
conjunction) and rejects with `-EINVAL` when it holds; otherwise the command
is sent.  Strings are modelled as `List Char`, `strlen` as `List.length`. -/
def swupdate_set_aes (key ivt : Option (List Char)) : AesResult :=
  match key, ivt with
  | none, _ => .err (-EINVAL)
  | _, none => .err (-EINVAL)
  | some k, some iv =>
    if k.length ≠ 64 ∧ iv.length ≠ 32 then .err (-EINVAL)
    else .sendCmd

/-! ## `swupdate_async_start` and `start_ipc_thread` -/

/-- The process-wide `running` lifecycle variable: `ASYNC_THREAD_INIT`,
`ASYNC_THREAD_RUNNING`, `ASYNC_THREAD_DONE`. -/
inductive ThreadState where
  | init
  | running
  | done
  deriving DecidableEq, Repr

/-- Environment of one `swupdate_async_start` call: the result of
`ipc_inst_start_ext` (negative on failure) and whether `pthread_create`
succeeds. -/
structure StartEnv where
  connfd : Int
  threadCreateOk : Bool
  deriving DecidableEq, Repr

/-- `start_ipc_thread`: on `pthread_create` failure it returns early leaving
`running` untouched; on success it sets `running = ASYNC_THREAD_RUNNING`. -/
def start_ipc_thread (st : ThreadState) (createOk : Bool) : ThreadState :=
  if createOk then .running else st

/-- `swupdate_async_start`: the switch on `running` returns `-EBUSY` when
RUNNING, reaps (joins) and resets to INIT when DONE; then the connection is
opened (`connfd < 0` is returned as-is) and the worker thread is started; the
return value is the C expression `running != ASYNC_THREAD_INIT` (1 or 0).
Returns the pair (return value, new `running` state). -/
def swupdate_async_start (st : ThreadState) (env : StartEnv) : Int × ThreadState :=
  match st with
  | .running => (-EBUSY, .running)
  | _ =>
    let st1 : ThreadState := .init
    if env.connfd < 0 then (env.connfd, st1)
    else
      let st2 := start_ipc_thread st1 env.threadCreateOk
      ((if st2 ≠ .init then 1 else 0), st2)

/-! ## Proofs for the write phase (C1) -/

theorem writeLoop_ok_of_full (send : Chunk → Int) :
    ∀ cs : List Chunk, (∀ c ∈ cs, c ≠ ([] : Chunk)) →
      (∀ c ∈ cs, send c = (c.length : Int)) →
      writeLoop send (cs ++ [[]]) = .ok cs.flatten
  | [], _, _ => by simp [writeLoop]
  | c :: rest, hne, hfull => by
    have hc : ¬c.isEmpty := by
      simp [List.isEmpty_iff]
      exact hne c (by simp)
    have hs : send c = (c.length : Int) := hfull c (by simp)
    have ih := writeLoop_ok_of_full send rest
      (fun d hd => hne d (by simp [hd]))
      (fun d hd => hfull d (by simp [hd]))
    simp [writeLoop, hc, hs, ih]

theorem writeLoop_fatal_of_short (send : Chunk → Int) :
    ∀ (pre : List Chunk) (c : Chunk) (post : List Chunk),
      (∀ d ∈ pre, d ≠ ([] : Chunk)) →
      (∀ d ∈ pre, send d = (d.length : Int)) →
      c ≠ ([] : Chunk) → send c < (c.length : Int) →
      writeLoop send ((pre ++ c :: post) ++ [[]]) = .fatal pre.flatten
  | [], c, post, _, _, hc, hshort => by
    have hc' : ¬c.isEmpty := by
      simp [List.isEmpty_iff]
      exact hc
    have hne : send c ≠ (c.length : Int) := ne_of_lt hshort
    simp [writeLoop, hc', hne]
  | d :: pre, c, post, hne, hfull, hc, hshort => by
    have hd : ¬d.isEmpty := by
      simp [List.isEmpty_iff]
      exact hne d (by simp)
    have hs : send d = (d.length : Int) := hfull d (by simp)
    have ih := writeLoop_fatal_of_short send pre c post
      (fun e he => hne e (by simp [he]))
      (fun e he => hfull e (by simp [he])) hc hshort
    simp only [List.append_assoc, List.cons_append] at ih ⊢
    simp [writeLoop, hd, hs, ih]

/-- C1: for every producer chunk sequence of non-empty chunks terminated by a
zero-length chunk, the write phase of `swupdate_async_thread` writes exactly
the bytes of each chunk in producer order (the concatenation), the total
written equals the sum of the chunk lengths, and if some chunk suffers a
short write the session is fatal with exactly the preceding chunks
written. -/
theorem async_thread_write_phase_correct
    (send : Chunk → Int) (cs : List Chunk)
    (hne : ∀ c ∈ cs, c ≠ ([] : Chunk))
    (hfull : ∀ c ∈ cs, send c = (c.length : Int)) :
    writeLoop send (cs ++ [[]]) = .ok cs.flatten
    ∧ cs.flatten.length = (cs.map List.length).sum
    ∧ (∀ (send2 : Chunk → Int) (pre : List Chunk) (c : Chunk) (post : List Chunk),
        cs = pre ++ c :: post →
        (∀ d ∈ pre, send2 d = (d.length : Int)) →
        send2 c < (c.length : Int) →
        writeLoop send2 (cs ++ [[]]) = .fatal pre.flatten) := by
  refine ⟨writeLoop_ok_of_full send cs hne hfull, List.length_flatten cs, ?_⟩
  intro send2 pre c post hcs hfull2 hshort
  subst hcs
  exact writeLoop_fatal_of_short send2 pre c post
    (fun d hd => hne d (by simp [hd]))
    hfull2
    (hne c (by simp))
    hshort

theorem async_thread_write_phase_correct_witness :
    writeLoop (fun c => (c.length : Int)) ([[1, 2], [3]] ++ [[]]) = .ok [1, 2, 3] :=
  (async_thread_write_phase_correct (fun c => (c.length : Int)) [[1, 2], [3]]
    (by decide) (fun c _ => rfl)).1

/-! ## Proofs for `swupdate_set_aes` (C2)

The source validates `strlen(key) != 64 && strlen(ivt) != 32`: the command is
rejected only when BOTH lengths are wrong, so a 64-character key together
with an IV of any wrong length (or vice versa) is sent instead of rejected.
The in-source comment "Lenght for key and IVT are fixed" and the spec agree
that both lengths were meant to be enforced, so this is a defect in the
code's condition (`&&` for `||`). -/

/-- C2 (code bug evaluation): with a 64-character key and a 1-character IV,
`swupdate_set_aes` sends the SET_AES_KEY command instead of returning
`-EINVAL` as the claim requires. -/
theorem swupdate_set_aes_length_check_bug :
    swupdate_set_aes (some (List.replicate 64 'a')) (some ['b']) = .sendCmd
    ∧ AesResult.sendCmd ≠ .err (-EINVAL) := by
  constructor
  · rfl
  · decide

/-! ## Proofs for the session lifecycle (C3, C9) -/

/-- C3 (counterexample): starting after a Done session does NOT always
succeed — with the connection to the updater refused, the call returns the
negative connection error and no session is started, refuting "a start after
a Done session always succeeds". -/
theorem async_start_after_done_can_fail :
    (swupdate_async_start .done ⟨-ECONNREFUSED, true⟩).1 < 0
    ∧ (swupdate_async_start .done ⟨-ECONNREFUSED, true⟩).2 ≠ .running := by
  decide

/-- C3 (amended): a start while Running always returns `-EBUSY` and leaves
the state Running; a start after Done first reaps the finished session
(behaving exactly as a start from NotStarted, in particular never returning
`-EBUSY`), and it returns a non-negative value whenever connecting to the
updater succeeds. -/
theorem async_start_lifecycle (env : StartEnv) :
    swupdate_async_start .running env = (-EBUSY, .running)
    ∧ swupdate_async_start .done env = swupdate_async_start .init env
    ∧ (0 ≤ env.connfd → 0 ≤ (swupdate_async_start .done env).1) := by
  refine ⟨rfl, rfl, ?_⟩
  intro h
  have h' : ¬env.connfd < 0 := not_lt.mpr h
  by_cases hc : env.threadCreateOk
  all_goals simp [swupdate_async_start, start_ipc_thread, h', hc]

theorem async_start_lifecycle_witness :
    0 ≤ (swupdate_async_start .done ⟨5, true⟩).1 :=
  (async_start_lifecycle ⟨5, true⟩).2.2 (by decide)

/-- C9: when the connection succeeds (`connfd ≥ 0`) but `pthread_create`
fails, `start_ipc_thread` returns without touching `running`, so
`swupdate_async_start` returns `running != ASYNC_THREAD_INIT`, i.e. `0` — a
non-negative value — and the lifecycle state remains NotStarted.  The same
holds when the start reaped a Done session first. -/
theorem start_thread_creation_failure_not_surfaced
    (connfd : Int) (h : 0 ≤ connfd) :
    swupdate_async_start .init ⟨connfd, false⟩ = (0, .init)
    ∧ swupdate_async_start .done ⟨connfd, false⟩ = (0, .init) := by
  have h' : ¬connfd < 0 := not_lt.mpr h
  constructor
  all_goals simp [swupdate_async_start, start_ipc_thread, h']

theorem start_thread_creation_failure_not_surfaced_witness :
    swupdate_async_start .init ⟨3, false⟩ = (0, .init) :=
  (start_thread_creation_failure_not_surfaced 3 (by decide)).1

/-! ## The worker thread's event trace (C4, C5)

`swupdate_async_thread` as a trace of its externally visible events, as a
function of the outcomes of its phases.  Control flow of the source:

1. `pthread_sigmask(SIG_BLOCK, {SIGPIPE}, &saved)`; on failure `goto out`.
2. `ipc_notify_connect()`; on failure `goto out`.
3. the do/while write loop; a select error, a short write, or a notify
   receive error is `goto out`.
4. `ipc_end(rq->connfd)` — close the data connection.
5. the drain-to-IDLE loop; a receive failure is `goto out`.
6. `ipc_end(notify_fd)` — close the notification connection.
7. `sigtimedwait` (result ignored), then
   `pthread_sigmask(SIG_SETMASK, &saved, 0)`; on failure `goto out`,
   otherwise fall through to `out`.
8. `out:` sets `running = ASYNC_THREAD_DONE`; if `rq->end` is set it calls
   `ipc_get_status` and — on a negative result — stores FAILURE in the
   message and jumps BACK to `out`, i.e. retries the query; on a
   non-negative result it invokes `rq->end(last_result)`.  Finally
   `pthread_exit`. -/

/-- Externally visible events of the worker thread. -/
inductive ThreadEv where
  | blockMask
  | closeData
  | closeNotify
  | restoreMask
  | callEnd (result : Int)
  | exitThread (success : Bool)
  deriving DecidableEq, Repr

/-- Environment of one worker-thread run: which phases succeed, whether a
terminator callback is configured, and the successive results of
`ipc_get_status` at the `out` label (`none` = negative return). -/
structure ThreadEnv where
  maskBlockOk : Bool
  notifyConnectOk : Bool
  writeFatal : Bool
  drainFatal : Bool
  maskRestoreOk : Bool
  hasEnd : Bool
  getStatus : List (Option Int)
  exitSuccess : Bool
  deriving DecidableEq, Repr

/-- Events produced from the `out` label onward.  With no terminator the
thread exits at once.  With a terminator, each failed `ipc_get_status`
jumps back to `out` and queries again; the supplied list of outcomes is
consumed one per query, and an exhausted list means the thread is still
looping (no further event, in particular no terminator call and no exit). -/
def finalizeTrace (succ : Bool) : Bool → List (Option Int) → List ThreadEv
  | false, _ => [.exitThread succ]
  | true, [] => []
  | true, none :: rest => finalizeTrace succ true rest
  | true, some r :: _ => [.callEnd r, .exitThread succ]

/-- The worker thread's event trace over its whole run. -/
def threadTrace (env : ThreadEnv) : List ThreadEv :=
  let fin := finalizeTrace env.exitSuccess env.hasEnd env.getStatus
  if ¬env.maskBlockOk then fin
  else .blockMask ::
    (if ¬env.notifyConnectOk then fin
     else if env.writeFatal then fin
     else .closeData ::
       (if env.drainFatal then fin
        else .closeNotify ::
          (if env.maskRestoreOk then .restoreMask :: fin else fin)))

/-- A run where the terminator is configured and every final
`ipc_get_status` query fails. -/
def envGetStatusFails : ThreadEnv :=
  ⟨true, true, false, false, true, true, [none, none, none], false⟩

/-- A run where a short write aborted the session and the final status query
succeeds with result 3. -/
def envWriteFatal : ThreadEnv :=
  ⟨true, true, true, false, true, true, [some 3], false⟩

/-- C4 (code bug evaluation): (i) with a terminator configured, when the
final `ipc_get_status` queries fail the thread loops back to `out` forever
and the terminator is never invoked — the FAILURE stored in the message
before the jump is dead, so the failure is not reported to the terminator;
(ii) on a fatal write-phase exit the terminator is invoked while neither the
data nor the notification connection has been closed. -/
theorem async_thread_terminator_bug :
    threadTrace envGetStatusFails
      = [.blockMask, .closeData, .closeNotify, .restoreMask]
    ∧ threadTrace envWriteFatal
      = [.blockMask, .callEnd 3, .exitThread false] := by
  constructor
  · rfl
  · rfl

theorem restoreMask_not_mem_finalizeTrace (succ : Bool) :
    ∀ (b : Bool) (l : List (Option Int)),
      ThreadEv.restoreMask ∉ finalizeTrace succ b l
  | false, _ => by simp [finalizeTrace]
  | true, [] => by simp [finalizeTrace]
  | true, none :: rest => by
    simpa [finalizeTrace] using restoreMask_not_mem_finalizeTrace succ true rest
  | true, some r :: _ => by simp [finalizeTrace]

/-- A run where `ipc_notify_connect` fails: the thread exits via `goto out`
without restoring the signal mask. -/
def envNotifyFail : ThreadEnv :=
  ⟨true, false, false, false, true, false, [], false⟩

/-- C5 (counterexample): the prior signal mask is NOT restored on every exit
path — on the fatal exit where connecting the notification channel fails,
the trace blocks SIGPIPE but never restores the saved mask. -/
theorem sigmask_not_restored_on_fatal_exit :
    ThreadEv.blockMask ∈ threadTrace envNotifyFail
    ∧ ThreadEv.restoreMask ∉ threadTrace envNotifyFail := by
  decide

/-- C5 (amended): whenever the initial `pthread_sigmask` succeeds, SIGPIPE is
blocked as the thread's very first action, and the saved mask is restored
exactly when the thread reaches the end of the successful path — the
notification channel connected, the write phase and the drain phase completed
without a fatal error, and the restoring `pthread_sigmask` call itself
succeeded.  Every fatal-error exit leaves the prior mask unrestored. -/
theorem sigmask_restored_only_on_success (env : ThreadEnv)
    (h : env.maskBlockOk = true) :
    (threadTrace env).head? = some .blockMask
    ∧ (ThreadEv.restoreMask ∈ threadTrace env ↔
        env.notifyConnectOk = true ∧ env.writeFatal = false
        ∧ env.drainFatal = false ∧ env.maskRestoreOk = true) := by
  obtain ⟨mb, nc, wf, df, mr, he, gs, es⟩ := env
  subst h
  constructor
  · cases nc <;> cases wf <;> cases df <;> cases mr <;> rfl
  · cases nc <;> cases wf <;> cases df <;> cases mr <;>
      simp [threadTrace, restoreMask_not_mem_finalizeTrace]

/-- A fully successful run with no terminator callback. -/
def envAllOk : ThreadEnv :=
  ⟨true, true, false, false, true, false, [], true⟩

theorem sigmask_restored_only_on_success_witness :
    ThreadEv.restoreMask ∈ threadTrace envAllOk :=
  (sigmask_restored_only_on_success envAllOk rfl).2.mpr (by decide)

/-! ## `mkswu_lock` (C6, C7)

Lines 151–199 of `core/mkswu.c`.  One `LockAttempt` supplies the syscall
outcomes of one pass through the `again:` label: the `open` result, the
errno of the non-blocking `flock` (`none` = acquired at once), the outcomes
of the successive blocking `flock` calls in the retry loop, the `fstat`
result, whether `lstat` succeeds with a matching inode, and whether the
reboot-pending marker is present at the `access` check.  The `goto again`
on an inode mismatch consumes the next attempt from the list. -/

structure LockAttempt where
  openOk : Bool
  nbErr : Option Nat
  blocking : List (Option Nat)
  fstatOk : Bool
  inodeMatches : Bool
  rebootMarker : Bool
  deriving DecidableEq, Repr

/-- Result of the blocking `while (1) flock(fd, LOCK_EX)` retry loop:
acquired, fatal error (`goto out_close`), or outcomes exhausted while the
loop is still spinning. -/
inductive FlockLoopRes where
  | acquired
  | fatal
  | exhausted
  deriving DecidableEq, Repr

/-- The blocking retry loop of `mkswu_lock`: success breaks out; errno
`EAGAIN` continues; any other errno is fatal.  Note the source continues on
`EAGAIN`, not on `EINTR`. -/
def blockingFlockLoop : List (Option Nat) → FlockLoopRes
  | [] => .exhausted
  | none :: _ => .acquired
  | some e :: rest => if e = EAGAIN then blockingFlockLoop rest else .fatal

/-- Result of `mkswu_lock`: a returned code (0 success, 1 error), the
deliberate reboot-pending stall, still waiting inside the blocking flock
loop, or restarts via `goto again` exhausted in the model. -/
inductive MkswuResult where
  | ret (code : Nat)
  | stall
  | waiting
  | again
  deriving DecidableEq, Repr

/-- `mkswu_lock` from the `again:` label (the initial `lock_fd` bookkeeping
for non-root users is not modelled; `lock_fd < 0` on entry is assumed, as
the source comments say the other case should never happen).  The
non-blocking `flock` failure branch checks the source's literal condition
`errno != EAGAIN || errno != EWOULDBLOCK` (with the Linux values
`EAGAIN = EWOULDBLOCK`); the inode re-validation failure restarts from the
next attempt; the reboot marker present at validation stalls forever. -/
def mkswu_lock : List LockAttempt → MkswuResult
  | [] => .again
  | a :: rest =>
    if ¬a.openOk then .ret 1
    else
      let flockFail : Option MkswuResult :=
        match a.nbErr with
        | none => none
        | some e =>
          if e ≠ EAGAIN ∨ e ≠ EWOULDBLOCK then some (.ret 1)
          else
            match blockingFlockLoop a.blocking with
            | .acquired => none
            | .fatal => some (.ret 1)
            | .exhausted => some .waiting
      match flockFail with
      | some r => r
      | none =>
        if ¬a.fstatOk then .ret 1
        else if ¬a.inodeMatches then mkswu_lock rest
        else if a.rebootMarker then .stall
        else .ret 0

/-- The `while (1) { sleep(1000); }` reboot-pending stall: its body never
consults the marker again, so it never terminates whatever the marker's
later states are.  Each list element is one later observation instant of the
marker; `none` means the loop is still running after all of them. -/
def stallLoop : List Bool → Option Unit
  | [] => none
  | _ :: rest => stallLoop rest

/-- C6 (code bug evaluation): when the non-blocking `flock` finds the lock
held (`EAGAIN`) and the first blocking `flock` is interrupted by a signal
(`EINTR`), `mkswu_lock` returns the error code 1 instead of retrying — the
retry condition in the source is `errno == EAGAIN`, so the retryable
interruption `EINTR` is treated as fatal even though the very next attempt
would have succeeded. -/
theorem mkswu_lock_eintr_fatal :
    mkswu_lock [⟨true, some EAGAIN, [some EINTR, none], true, true, false⟩]
      = .ret 1
    ∧ blockingFlockLoop [some EINTR, none] = .fatal := by
  decide

theorem stallLoop_never_returns : ∀ laterMarkers : List Bool,
    stallLoop laterMarkers = none
  | [] => rfl
  | _ :: rest => stallLoop_never_returns rest

/-- C7: if the reboot-pending marker is present when a freshly taken and
validated lock is checked, `mkswu_lock` enters the unconditional stall and
never returns; the stall loop never consults the marker again, so it does
not terminate for any sequence of later marker states — in particular
removing the marker afterwards does not unblock it. -/
theorem mkswu_lock_reboot_stall (a : LockAttempt)
    (hopen : a.openOk = true) (hnb : a.nbErr = none)
    (hst : a.fstatOk = true) (hin : a.inodeMatches = true)
    (hrb : a.rebootMarker = true)
    (rest : List LockAttempt) (laterMarkers : List Bool) :
    mkswu_lock (a :: rest) = .stall
    ∧ stallLoop laterMarkers = none := by
  refine ⟨?_, stallLoop_never_returns laterMarkers⟩
  simp [mkswu_lock, hopen, hnb, hst, hin, hrb]

theorem mkswu_lock_reboot_stall_witness :
    mkswu_lock [⟨true, none, [], true, true, true⟩] = .stall
    ∧ stallLoop [false, false] = none :=
  mkswu_lock_reboot_stall ⟨true, none, [], true, true, true⟩
    rfl rfl rfl rfl rfl [] [false, false]

/-! ## `pipe_poll_process` and the tail of `pipe_image` (C8, C10)

`pipe_poll_process(priv, write)` loops: select (1 s timeout) on the child's
stdout/stderr (and stdin when `write`); a select error returns `-errno`;
readable streams are drained through `read_lines_notify`, a negative result
returns it; if any bytes were read the loop continues at once; otherwise
`waitpid(WNOHANG)`: a waitpid error returns `-errno`; a normal exit with
status N records `priv->status = N` and returns `-N`; a signal-terminated
child records `priv->status = 1` and returns `-1`; with no exit, a writable
stdin (in write mode) returns 0, else the loop re-runs.

One `PollStep` supplies the syscall outcomes of one loop iteration.  The
returned pair is (return value, `priv->status` as recorded by this call,
`-1` when the call did not reap the child); `none` means the supplied steps
ran out with the loop still running. -/

/-- Outcome of the `waitpid(pid, &wstatus, WNOHANG)` call. -/
inductive WaitRes where
  | noChild
  | waitErr (e : Nat)
  | exited (code : Nat)
  | signaled
  deriving DecidableEq, Repr

/-- Syscall outcomes of one iteration of the `pipe_poll_process` loop:
`outRead`/`errRead` are the `read_lines_notify` results for a readable
stdout/stderr (`none` = not readable). -/
structure PollStep where
  selectErr : Option Nat
  outRead : Option Int
  errRead : Option Int
  waitRes : WaitRes
  stdinWritable : Bool
  deriving DecidableEq, Repr

/-- The stdout-then-stderr read sequence of one iteration: first negative
`read_lines_notify` result aborts, otherwise the total byte count `n` of the
iteration is accumulated. -/
def readPhase (outRead errRead : Option Int) : Except Int Nat :=
  match outRead with
  | some r =>
    if r < 0 then .error r
    else
      match errRead with
      | some r2 => if r2 < 0 then .error r2 else .ok (r.toNat + r2.toNat)
      | none => .ok r.toNat
  | none =>
    match errRead with
    | some r2 => if r2 < 0 then .error r2 else .ok r2.toNat
    | none => .ok 0

/-- `pipe_poll_process` over a list of per-iteration syscall outcomes. -/
def pipe_poll_process (write : Bool) : List PollStep → Option (Int × Int)
  | [] => none
  | s :: rest =>
    match s.selectErr with
    | some e => some (-(e : Int), -1)
    | none =>
      match readPhase s.outRead s.errRead with
      | .error e => some (e, -1)
      | .ok n =>
        if 0 < n then pipe_poll_process write rest
        else
          match s.waitRes with
          | .waitErr e => some (-(e : Int), -1)
          | .exited code => some (-(code : Int), (code : Int))
          | .signaled => some (-1, 1)
          | .noChild =>
            if write && s.stdinWritable then some (0, -1)
            else pipe_poll_process write rest

/-- An iteration in which the child produced `n` bytes of diagnostic output
on stdout and did not exit. -/
def diagStep (n : Nat) : PollStep := ⟨none, some (n : Int), none, .noChild, false⟩

/-- An iteration in which nothing is readable and `waitpid` reports a normal
exit with status `code`. -/
def exitStep (code : Nat) : PollStep := ⟨none, none, none, .exited code, false⟩

/-- An iteration in which nothing is readable and `waitpid` reports the
child was terminated by a signal. -/
def sigStep : PollStep := ⟨none, none, none, .signaled, false⟩

theorem pipe_poll_process_diag_skip (write : Bool) (n : Nat)
    (rest : List PollStep) :
    pipe_poll_process write (diagStep n :: rest) = pipe_poll_process write rest := by
  have hn : ¬((n : Int) < 0) := Int.not_lt.mpr (Int.natCast_nonneg n)
  by_cases h : 0 < n
  all_goals simp [pipe_poll_process, diagStep, readPhase, hn, h]

/-- The tail of `pipe_image` after `copyimage` returned `copyRet`: stdin is
closed; if `priv.status` is still the sentinel `-1` the final
`pipe_poll_process(&priv, 0)` runs and yields `pollRet`; the source keeps the
original error (`if (!ret) ret = pollret`), and the result is returned. -/
def pipe_image_tail (copyRet status pollRet : Int) : Int :=
  if status = -1 then (if copyRet = 0 then pollRet else copyRet) else copyRet

/-- Whether the tail of `pipe_image` runs the final drain-to-exit poll:
exactly when the child was not already reaped (`priv.status == -1`). -/
def pipe_image_finalPollRuns (status : Int) : Bool := status = -1

/-- C8: after any number of iterations that only drained diagnostic output,
an iteration whose `waitpid` reports a normal exit with status `code` makes
`pipe_poll_process` record `code` as the exit status and return it negated
(`-code`), and the `pipe_image` tail reports that negated value to the
caller when the copy itself succeeded; a signal-terminated child is instead
recorded as the generic failure status 1 (returned as `-1`). -/
theorem pipe_poll_process_exit_status (write : Bool) (ns : List Nat)
    (code : Nat) :
    pipe_poll_process write (ns.map diagStep ++ [exitStep code])
      = some (-(code : Int), (code : Int))
    ∧ pipe_poll_process write (ns.map diagStep ++ [sigStep]) = some (-1, 1)
    ∧ pipe_image_tail 0 (-1) (-(code : Int)) = -(code : Int) := by
  induction ns with
  | nil =>
    refine ⟨?_, ?_, ?_⟩
    · simp [pipe_poll_process, exitStep, readPhase]
    · simp [pipe_poll_process, sigStep, readPhase]
    · simp [pipe_image_tail]
  | cons n rest ih =>
    refine ⟨?_, ?_, ih.2.2⟩
    · simpa [pipe_poll_process_diag_skip] using ih.1
    · simpa [pipe_poll_process_diag_skip] using ih.2.1

/-- C10: when the chunked copy into the subprocess's stdin failed with a
negative error and the child has not been reaped (`priv.status` still `-1`),
the final drain-to-exit poll still runs, but `pipe_image` returns the
original copy error rather than the final poll's result. -/
theorem pipe_image_copy_error_precedence (copyRet pollRet : Int)
    (h : copyRet < 0) :
    pipe_image_finalPollRuns (-1) = true
    ∧ pipe_image_tail copyRet (-1) pollRet = copyRet := by
  refine ⟨rfl, ?_⟩
  have h0 : copyRet ≠ 0 := ne_of_lt h
  simp [pipe_image_tail, h0]

theorem pipe_image_copy_error_precedence_witness :
    pipe_image_finalPollRuns (-1) = true
    ∧ pipe_image_tail (-5) (-1) (-7) = -5 :=
  pipe_image_copy_error_precedence (-5) (-7) (by decide)
